import Mathlib

set_option maxRecDepth 16000

/-!
Verification of the Candidate Scoring Engine of the Content-Platform repository.

The Lean definitions below are a shallow embedding of the Python sources:
  * `src/backend/services/git_profile_service.py`
      (`calculate_consistency_score`, `generate_contribution_heatmap`,
       `generate_heatmap_from_contributions`)
  * `src/backend/services/git_score_calculator.py`
      (`score_pr_activity`, `score_consistency`, `score_comment_quality`,
       `score_pr_quality`, `score_time_taken`, `score_num_repos`,
       `calculate_git_score`)
  * `src/backend/services/github_service.py`
      (`PRIORITY_LABELS`, `calculate_label_score`, `analyze_pr`,
       `select_normalized_contributors`)

Modelling conventions:
  * Python floats are modelled as `ℚ`.  All arithmetic appearing in the
    sources (sums, divisions by constants, min/max, comparisons) is exact
    decimal arithmetic, so `ℚ` is a faithful model; `round(x, 2)` is
    modelled as `round2` below (round-half-up; the sources never hit an
    exact half tie in any statement proved here).
  * Python `datetime.date` values are modelled by `Date` (year/month/day
    triples).  Date strings parsed with `fromisoformat` / `strptime` are
    modelled as `Option Date` (`none` = empty string, which is falsy),
    together with `Date.valid` (parse succeeds exactly on valid calendar
    dates with 1 ≤ year ≤ 9999).  Time-of-day and timezone parts never
    influence any computation modelled here (only `.year`, `.weekday()`,
    `.isocalendar()` and day differences are used by the sources).
  * Python dicts keyed by year / ISO-week strings are modelled by
    association lists (preserving insertion order, which Python dicts
    guarantee) or by total lookup functions, as noted at each definition.
-/

/-! ### Proleptic Gregorian calendar arithmetic

`rataDie y m d` is the number of days from 0000-03-01 (proleptic
Gregorian) to the date `y-m-d`; it is the standard "days from civil"
computation, valid for every date from year 1 on.  `civilFromDays` is its
inverse.  `pyWeekday` is Python's `date.weekday()` (Monday = 0);
0000-03-01 is a Wednesday, hence the `+ 2`. -/

def isLeap (y : ℕ) : Bool := y % 4 = 0 ∧ (y % 100 ≠ 0 ∨ y % 400 = 0)

def daysInMonth (y m : ℕ) : ℕ :=
  if m = 2 then (if isLeap y then 29 else 28)
  else if m = 4 ∨ m = 6 ∨ m = 9 ∨ m = 11 then 30
  else 31

structure Date where
  y : ℕ
  m : ℕ
  d : ℕ
deriving DecidableEq

/-- Parse success of `datetime.fromisoformat` / `strptime('%Y-%m-%d')` on the
date part: a valid proleptic Gregorian date with year in `datetime`'s
supported range 1..9999. -/
def Date.valid (dt : Date) : Bool :=
  1 ≤ dt.y ∧ dt.y ≤ 9999 ∧ 1 ≤ dt.m ∧ dt.m ≤ 12 ∧ 1 ≤ dt.d ∧ dt.d ≤ daysInMonth dt.y dt.m

/-- Days since 0000-03-01 (year counted from March so leap days land last). -/
def rataDie (y m d : ℕ) : ℕ :=
  let y2 := if m ≤ 2 then y - 1 else y
  let mp := (m + 9) % 12
  let doy := (153 * mp + 2) / 5 + d - 1
  y2 * 365 + y2 / 4 - y2 / 100 + y2 / 400 + doy

def Date.rd (dt : Date) : ℕ := rataDie dt.y dt.m dt.d

/-- Python `date.weekday()`: Monday = 0 .. Sunday = 6. -/
def pyWeekday (n : ℕ) : ℕ := (n + 2) % 7

/-- Inverse of `rataDie` (Hinnant's civil-from-days, non-negative case). -/
def civilFromDays (n : ℕ) : Date :=
  let era := n / 146097
  let doe := n % 146097
  let yoe := (doe - doe / 1460 + doe / 36524 - doe / 146096) / 365
  let doy := doe - (365 * yoe + yoe / 4 - yoe / 100)
  let mp := (5 * doy + 2) / 153
  let d := doy - (153 * mp + 2) / 5 + 1
  let m := if mp < 10 then mp + 3 else mp - 9
  let y := yoe + era * 400 + (if m ≤ 2 then 1 else 0)
  ⟨y, m, d⟩

/-- Python `date.isocalendar()` restricted to its `(year, week)` components,
computed from a rata-die day number: the ISO year/week of a day are the year
and the week-of-year (1-based, 7-day blocks from Jan 1) of the Thursday of
that day's Monday-based week. -/
def isoKeyRD (n : ℕ) : ℕ × ℕ :=
  let t := n + 3 - pyWeekday n
  let ty := (civilFromDays t).y
  (ty, (t - rataDie ty 1 1) / 7 + 1)

def Date.isoKey (dt : Date) : ℕ × ℕ := isoKeyRD dt.rd

/-! ### `calculate_consistency_score`
(`git_profile_service.py`, lines 583-901).

The input `heatmap_data : Dict[str, List[Dict]]` maps a year string to a
list of heatmap cells; only the cells' `count` and `date` fields are read
(the dict key itself is used for logging only), so the input is modelled as
a list of per-year cell lists in dict insertion order.  A cell's `date`
is `none` for the empty string (falsy in the `if count > 0 and date_str`
test).  The Python function's `username`, `prs` and `commits` parameters
are unused in the heatmap branch modelled here (logging only / dead
fallback), and are dropped. -/

structure HCell where
  count : ℕ
  date : Option Date
deriving DecidableEq

/-- Lines 619-632: collect `(date, count)` from cells with
`count > 0 and date_str`, years in dict order, cells in list order. -/
def extractContribs (hm : List (List HCell)) : List (Date × ℕ) :=
  hm.flatMap (fun yearData =>
    yearData.filterMap (fun c =>
      c.date.bind (fun dt => if 0 < c.count then some (dt, c.count) else none)))

/-- The contributions whose date string parses (lines 652-675 drop the
ones that raise). -/
def validContribs (hm : List (List HCell)) : List (Date × ℕ) :=
  (extractContribs hm).filter (fun p => p.1.valid)

/-- Lines 647-669 build `weekly_commits : week_key ↦ total count`; the
dict is only read back via `.get(week_key, 0)` and emptiness tests, so it
is modelled as the total-lookup function (key = ISO `(year, week)`; the
`f"{year}-W{week:02d}"` formatting is injective on those pairs). -/
def weeklyCommits (hm : List (List HCell)) (k : ℕ × ℕ) : ℕ :=
  ((validContribs hm).map (fun p => if p.1.isoKey = k then p.2 else 0)).sum

/-- Lines 701-715: `year_contribution_counts` accumulated in first-occurrence
(dict insertion) order. -/
def addYearCount (acc : List (ℕ × ℕ)) (y c : ℕ) : List (ℕ × ℕ) :=
  if acc.any (fun p => p.1 = y) then
    acc.map (fun p => if p.1 = y then (p.1, p.2 + c) else p)
  else acc ++ [(y, c)]

def yearCounts (l : List (Date × ℕ)) : List (ℕ × ℕ) :=
  l.foldl (fun acc p => addYearCount acc p.1.y p.2) []

/-- Python `max(items, key=...)`: first item of maximal value in iteration
order (later items replace only on strict `>`). -/
def firstMaxKey : List (ℕ × ℕ) → ℕ
  | [] => 0
  | p :: rest => (rest.foldl (fun best q => if best.2 < q.2 then q else best) p).1

/-- Line 722: the analysis year (calendar year with the most contributions,
first such year in insertion order on ties). -/
def analysisYear (hm : List (List HCell)) : ℕ :=
  firstMaxKey (yearCounts (validContribs hm))

/-- Lines 738-740: Monday of the ISO week containing Jan 4. -/
def yearStartRD (y : ℕ) : ℕ := rataDie y 1 4 - pyWeekday (rataDie y 1 4)

/-- Lines 747-769: the 52 weekly totals seen by the walk.  `year_weekly_commits`
only contains keys whose ISO-year part equals the analysis year (lines
728-732), hence the guard. -/
def walkCommits (hm : List (List HCell)) : List ℕ :=
  (List.range 52).map (fun k =>
    let key := isoKeyRD (yearStartRD (analysisYear hm) + 7 * k)
    if key.1 = analysisYear hm then weeklyCommits hm key else 0)

def awOf (cs : List ℕ) : ℕ := cs.countP (fun c => c != 0)

def activeWeeksOf (hm : List (List HCell)) : ℕ := awOf (walkCommits hm)

/-- Lines 756-767: per-week tier score (`commits > 0` is `c ≠ 0` on ℕ). -/
def tierScore (c : ℕ) : ℚ :=
  if c = 0 then 0 else if c ≤ 3 then 0.5 else if c ≤ 10 then 0.8 else 1

/-- Lines 744-769: consecutive-gap tracking; state is `(current_gap, longest_gap)`. -/
def gapStep (p : ℕ × ℕ) (c : ℕ) : ℕ × ℕ :=
  if c != 0 then (0, p.2) else (p.1 + 1, max p.2 (p.1 + 1))

def longestGapOf (cs : List ℕ) : ℕ := (cs.foldl gapStep (0, 0)).2

/-- Lines 795-846: activity-aware gap penalty (`total_weeks = 52`). -/
def gapPenalty (aw g : ℕ) : ℚ :=
  if g = 0 then 0
  else if 30 ≤ aw then 0
  else if 25 ≤ aw then (if 30 < g then ((g : ℚ) / 52) * 0.05 else 0)
  else if 20 ≤ aw then
    (if 25 < g then ((g : ℚ) / 52) * 0.1
     else if 20 < g then ((g : ℚ) / 52) * 0.05 else 0)
  else if 15 ≤ aw then
    (if 25 < g then ((g : ℚ) / 52) * 0.15
     else if 15 < g then ((g : ℚ) / 52) * 0.08 else 0)
  else if 10 ≤ aw then
    (if 30 < g then min 0.2 (((g : ℚ) / 52) * 0.2)
     else if 20 < g then ((g : ℚ) / 52) * 0.12
     else if 10 < g then ((g : ℚ) / 52) * 0.06 else 0)
  else
    (if 30 < g then min 0.25 (((g : ℚ) / 52) * 0.25)
     else if 20 < g then min 0.15 (((g : ℚ) / 52) * 0.15)
     else if 10 < g then ((g : ℚ) / 52) * 0.1
     else ((g : ℚ) / 52) * 0.05)

/-- Python `round(x, 2)` modelled as round-half-up to 2 decimals. -/
def round2 (x : ℚ) : ℚ := (⌊x * 100 + 1 / 2⌋ : ℚ) / 100

/-- Lines 869-896: the activity-tier safeguard floor for a given number of
active weeks (the `elif` chain applies exactly the first matching floor). -/
def floorFor (aw : ℕ) : ℚ :=
  if 30 ≤ aw then 65 else if 25 ≤ aw then 55 else if 20 ≤ aw then 45
  else if 15 ≤ aw then 35 else if 10 ≤ aw then 25 else if 5 ≤ aw then 15
  else if 3 ≤ aw then 10 else 0

/-- Lines 771-896 for a given list of 52 weekly totals: ratio/average,
gap penalty, clamp to [0, 100] (line 865), then the safeguard floors
(applied with `max`, lines 869-896). -/
def scoreFromWeeks (cs : List ℕ) : ℚ :=
  let aw := awOf cs
  let ratio : ℚ := (aw : ℚ) / 52
  let avg : ℚ := ((cs.map tierScore).sum) / 52
  let idx := (ratio * 60 + avg * 25) - gapPenalty aw (longestGapOf cs) * 5
  max (max 0 (min 100 idx)) (floorFor aw)

/-- `calculate_consistency_score` (lines 583-901).  The four early returns:
empty/falsy `heatmap_data` (line 639 via line 608), empty `contributions`
(line 643), no parseable date (line 681; the later `years_in_data` /
`year_contribution_counts` emptiness returns at lines 697 and 719 fire in
exactly the same case and are subsumed), and the `active_weeks == 0`
minimum-score return of 15.0 (lines 782-789; `contributions` is non-empty
whenever it is reached).  Otherwise the formula result is rounded to two
decimals (line 901). -/
def calculate_consistency_score (hm : List (List HCell)) : ℚ :=
  if hm = [] then 0
  else if extractContribs hm = [] then 0
  else if validContribs hm = [] then 0
  else if activeWeeksOf hm = 0 then 15
  else round2 (scoreFromWeeks (walkCommits hm))

/-! ### Heatmap builders
(`git_profile_service.py`: `generate_contribution_heatmap`, lines 1226-1348,
and `generate_heatmap_from_contributions`, lines 1106-1223).

The two Python functions are line-for-line identical except for the events
they accumulate (commits with weight 1 vs. calendar contributions with
their own `count`; both then add merged PRs with weight 2), so the common
body is factored into `buildYear` over a list of `(weight, date)` events.
The per-year `heatmap_grid` dict (pre-initialised on all 52×7 keys; the
`if key not in heatmap_grid` re-initialisations are dead code since
`0 <= week < 52 and 0 <= day < 7` always holds after `min(51, ...)` and
`weekday()`) is modelled as a total function updated by a fold. -/

structure Commit where
  date : Option Date

structure PRrec where
  merged_at : Option Date

structure Contribution where
  date : Option Date
  count : ℕ

structure HMCell where
  week : ℕ
  day : ℕ
  value : ℕ
  count : ℕ
  date : Date
deriving DecidableEq

/-- Lines 1250-1258: the Monday on or before Jan 1. -/
def startOfFirstWeek (y : ℕ) : ℕ := rataDie y 1 1 - pyWeekday (rataDie y 1 1)

/-- Lines 1268-1272: grid position of an in-year date. -/
def eventKey (y : ℕ) (rd : ℕ) : ℕ × ℕ :=
  (min 51 ((rd - startOfFirstWeek y) / 7), pyWeekday rd)

/-- One accumulation step (lines 1262-1307): skip events with empty or
unparseable dates or dates outside the year; otherwise add the weight to
the cell and record the first date seen there. -/
def gridStep (y : ℕ) (g : ℕ × ℕ → ℕ × Option Date) (e : ℕ × Option Date) :
    ℕ × ℕ → ℕ × Option Date :=
  match e.2 with
  | none => g
  | some dt =>
    if dt.valid ∧ dt.y = y then
      fun k =>
        if k = eventKey y dt.rd then
          ((g k).1 + e.1, ((g k).2).orElse (fun _ => some dt))
        else g k
    else g

def gridOf (events : List (ℕ × Option Date)) (y : ℕ) : ℕ × ℕ → ℕ × Option Date :=
  events.foldl (gridStep y) (fun _ => (0, none))

/-- Lines 1315-1316 iteration order: week outer, day inner. -/
def gridKeys : List (ℕ × ℕ) :=
  (List.range 52).flatMap (fun w => (List.range 7).map (fun d => (w, d)))

/-- Line 1312: `max(cell['count'] for cell in heatmap_grid.values())`. -/
def maxCount (g : ℕ × ℕ → ℕ × Option Date) : ℕ :=
  (gridKeys.map (fun k => (g k).1)).foldl max 0

/-- Lines 1311-1342: emit the 52×7 cells; a cell with no recorded date gets
the date inferred from its grid position (lines 1322-1328), and the raw
count is normalised to 0-4 by `min(4, int(raw / max * 4))` (lines 1330-1334). -/
def buildYear (events : List (ℕ × Option Date)) (y : ℕ) : List HMCell :=
  let g := gridOf events y
  let mc := maxCount g
  gridKeys.map (fun k =>
    let c := (g k).1
    { week := k.1
      day := k.2
      value := if 0 < mc then min 4 (4 * c / mc) else 0
      count := c
      date := match (g k).2 with
              | some dt => dt
              | none => civilFromDays (startOfFirstWeek y + (k.1 * 7 + k.2)) })

/-- Commit events (weight 1, lines 1260-1283) followed by merged-PR events
(weight 2, lines 1285-1307), in processing order. -/
def eventsOfCommitsPRs (commits : List Commit) (prs : List PRrec) :
    List (ℕ × Option Date) :=
  commits.map (fun c => (1, c.date)) ++ prs.map (fun p => (2, p.merged_at))

/-- Contribution events carry their own count (`contrib.get('count', 1)`,
line 1137; missing counts are modelled as already defaulted), followed by
merged-PR events with weight 2 (lines 1165-1186). -/
def eventsOfContribsPRs (contribs : List Contribution) (prs : List PRrec) :
    List (ℕ × Option Date) :=
  contribs.map (fun c => (c.count, c.date)) ++ prs.map (fun p => (2, p.merged_at))

/-- `generate_contribution_heatmap` (lines 1226-1348): one grid per year in
`[2024, 2025, 2026]`, keyed by the year (`str(year)` in Python; the string
conversion is injective here and dropped). -/
def generate_contribution_heatmap (commits : List Commit) (prs : List PRrec) :
    List (ℕ × List HMCell) :=
  [2024, 2025, 2026].map (fun y => (y, buildYear (eventsOfCommitsPRs commits prs) y))

/-- `generate_heatmap_from_contributions` (lines 1106-1223). -/
def generate_heatmap_from_contributions (contribs : List Contribution)
    (prs : List PRrec) : List (ℕ × List HMCell) :=
  [2024, 2025, 2026].map (fun y => (y, buildYear (eventsOfContribsPRs contribs prs) y))

/-- The grid key a single event is accumulated into, if any. -/
def eventKeyOf (y : ℕ) (e : ℕ × Option Date) : Option (ℕ × ℕ) :=
  match e.2 with
  | some dt => if dt.valid ∧ dt.y = y then some (eventKey y dt.rd) else none
  | none => none

/-- The weight a single event adds to the cell at key `k`. -/
def eventCount (y : ℕ) (k : ℕ × ℕ) (e : ℕ × Option Date) : ℕ :=
  match e.2 with
  | some dt => if (dt.valid ∧ dt.y = y) ∧ k = eventKey y dt.rd then e.1 else 0
  | none => 0

/-- The grid keys that receive at least one event (used to state the
zero-fill property: a key not in this list keeps count 0 and `none` date). -/
def assignedKeys (events : List (ℕ × Option Date)) (y : ℕ) : List (ℕ × ℕ) :=
  events.filterMap (eventKeyOf y)

/-! ### `git_score_calculator.py` -/

/-- `profile_metrics` dict: the four keys read by `calculate_git_score`
(missing keys default to `0` / `0.0`; the record models the
already-defaulted values).  Counts are Python ints, modelled as `ℤ`. -/
structure ProfileMetrics where
  total_prs_merged : ℤ
  avg_prs_per_week : ℚ
  consistency_score : ℚ
  num_repos : ℤ

/-- `agent_metrics` dict: `None`/missing is `none`. -/
structure AgentMetrics where
  comment_quality : Option ℚ
  pr_quality : Option ℚ
  time_taken : Option ℚ

structure Breakdown where
  pr_activity : ℚ
  consistency : ℚ
  comment_quality : ℚ
  pr_quality : ℚ
  time_taken : ℚ
  num_repos : ℚ

structure GitScoreResult where
  git_score : ℚ
  breakdown : Breakdown

/-- Lines 19-35 of `git_score_calculator.py`. -/
def pr_count_score (total_prs_merged : ℤ) : ℚ :=
  if 50 ≤ total_prs_merged then 100
  else if 30 ≤ total_prs_merged then 80
  else if 20 ≤ total_prs_merged then 70
  else if 10 ≤ total_prs_merged then 60
  else if 5 ≤ total_prs_merged then 50
  else if 2 ≤ total_prs_merged then 40
  else if 1 ≤ total_prs_merged then 30
  else 0

/-- Lines 37-49. -/
def frequency_score (avg_prs_per_week : ℚ) : ℚ :=
  if 2 ≤ avg_prs_per_week then 100
  else if 1 ≤ avg_prs_per_week then 80
  else if 0.5 ≤ avg_prs_per_week then 60
  else if 0.25 ≤ avg_prs_per_week then 40
  else if 0 < avg_prs_per_week then 20
  else 0

/-- `score_pr_activity` (lines 14-53): 60/40 weighted combination, rounded. -/
def score_pr_activity (total_prs_merged : ℤ) (avg_prs_per_week : ℚ) : ℚ :=
  round2 (pr_count_score total_prs_merged * 0.6 + frequency_score avg_prs_per_week * 0.4)

/-- `score_consistency` (lines 56-62). -/
def score_consistency (consistency_score : ℚ) : ℚ :=
  round2 (max 0 (min 100 consistency_score))

/-- `score_comment_quality` (lines 65-73). -/
def score_comment_quality (comment_quality_score : Option ℚ) : ℚ :=
  match comment_quality_score with
  | none => 50
  | some v => round2 (max 0 (min 100 (v * 20)))

/-- `score_pr_quality` (lines 76-84). -/
def score_pr_quality (pr_quality_score : Option ℚ) : ℚ :=
  match pr_quality_score with
  | none => 50
  | some v => round2 (max 0 (min 100 (v * 20)))

/-- `score_time_taken` (lines 87-95). -/
def score_time_taken (time_taken_score : Option ℚ) : ℚ :=
  match time_taken_score with
  | none => 50
  | some v => round2 (max 0 (min 100 (v * 20)))

/-- `score_num_repos` (lines 98-120). -/
def score_num_repos (num_repos : ℤ) : ℚ :=
  if 20 ≤ num_repos then 100
  else if 15 ≤ num_repos then 90
  else if 10 ≤ num_repos then 80
  else if 7 ≤ num_repos then 70
  else if 5 ≤ num_repos then 60
  else if 3 ≤ num_repos then 50
  else if 2 ≤ num_repos then 40
  else if 1 ≤ num_repos then 30
  else 0

/-- `calculate_git_score` (lines 123-200): the six sub-scores, their plain
average, the clamp to [0, 100] (line 188) and the final `round(·, 2)`
(line 191). -/
def calculate_git_score (pm : ProfileMetrics) (am : AgentMetrics) : GitScoreResult :=
  let pr_activity_score := score_pr_activity pm.total_prs_merged pm.avg_prs_per_week
  let consistency_score := score_consistency pm.consistency_score
  let comment_quality_score := score_comment_quality am.comment_quality
  let pr_quality_score := score_pr_quality am.pr_quality
  let time_taken_score := score_time_taken am.time_taken
  let num_repos_score := score_num_repos pm.num_repos
  let git_score := (pr_activity_score + consistency_score + comment_quality_score +
    pr_quality_score + time_taken_score + num_repos_score) / 6
  let git_score2 := max 0 (min 100 git_score)
  { git_score := round2 git_score2
    breakdown :=
      { pr_activity := pr_activity_score
        consistency := consistency_score
        comment_quality := comment_quality_score
        pr_quality := pr_quality_score
        time_taken := time_taken_score
        num_repos := num_repos_score } }

/-! ### `github_service.py`
`PRIORITY_LABELS` (line 11), `calculate_label_score` (lines 156-165),
the score computation of `analyze_pr` (lines 242-281), and
`select_normalized_contributors` (lines 386-442).

Python's `str.lower()` is modelled on ASCII letters (every string the
matching logic compares against — the fixed vocabulary — is ASCII), and
Python's substring test `p in name` is `hasSubstring`. -/

def lowerChar (c : Char) : Char :=
  if 65 ≤ c.toNat ∧ c.toNat ≤ 90 then Char.ofNat (c.toNat + 32) else c

def strLower (s : String) : String := ⟨s.data.map lowerChar⟩

/-- Python `needle in hay` for strings (substring containment). -/
def hasSubstring (needle : List Char) : List Char → Bool
  | [] => needle.isEmpty
  | c :: t => needle.isPrefixOf (c :: t) || hasSubstring needle t

def pyIn (needle hay : String) : Bool := hasSubstring needle.data hay.data

def PRIORITY_LABELS : List String :=
  ["feature", "high priority", "bounty", "$", "money", "reward", "points"]

structure Label where
  name : String

/-- `calculate_label_score` (lines 156-165): +10 for each vocabulary entry
that occurs (case-insensitively, as a substring) in some label name. -/
def calculate_label_score (labels : List Label) : ℚ :=
  let label_names := labels.map (fun l => strLower l.name)
  PRIORITY_LABELS.foldl
    (fun score priority_label =>
      if label_names.any (fun name => pyIn (strLower priority_label) name) then
        score + 10
      else score)
    0

/-- The score computed by `analyze_pr` (lines 251-269) as a function of the
PR's labels and the metrics returned by the files/commits sub-fetches
(`files_changed`, `lines_of_code = Σ additions+deletions`, `commits_count`). -/
def analyze_pr_score (labels : List Label)
    (files_changed lines_of_code commits_count : ℕ) : ℚ :=
  let label_score := calculate_label_score labels
  let normalized_files := min (((files_changed : ℚ) / 50) * 20) 20
  let normalized_loc := min (((lines_of_code : ℚ) / 5000) * 20) 20
  let normalized_commits := min (((commits_count : ℚ) / 20) * 20) 20
  label_score + normalized_files + normalized_loc + normalized_commits

structure Contributor where
  login : String
  contributions : ℕ

/-- `select_normalized_contributors` (lines 386-442).  `random.sample` is
modelled by an explicit `sample` argument; it is called with
`min 2 (population length)`, matching `random.sample(range_x, min(2, len(range_x)))`.
Python slices `contributors[a:b]` / `contributors[a:]` are
`(drop a).take (b-a)` / `drop a`. -/
def select_normalized_contributors
    (sample : List Contributor → ℕ → List Contributor)
    (contributors : List Contributor) : List Contributor :=
  let s1 :=
    if 40 ≤ contributors.length then
      let r := (contributors.drop 30).take 10
      sample r (min 2 r.length)
    else if 30 < contributors.length then
      let r := contributors.drop 30
      sample r (min 2 r.length)
    else []
  let s2 :=
    if 50 ≤ contributors.length then
      let r := (contributors.drop 40).take 10
      sample r (min 2 r.length)
    else if 40 < contributors.length then
      let r := contributors.drop 40
      sample r (min 2 r.length)
    else []
  let s3 :=
    if 60 ≤ contributors.length then
      let r := (contributors.drop 50).take 10
      sample r (min 2 r.length)
    else if 50 < contributors.length then
      let r := contributors.drop 50
      sample r (min 2 r.length)
    else []
  let s4 :=
    if 70 ≤ contributors.length then
      let r := (contributors.drop 60).take 10
      sample r (min 2 r.length)
    else if 60 < contributors.length then
      let r := contributors.drop 60
      sample r (min 2 r.length)
    else []
  let s5 :=
    if 100 ≤ contributors.length then
      let r := (contributors.drop 70).take 30
      sample r (min 2 r.length)
    else if 70 < contributors.length then
      let r := contributors.drop 70
      sample r (min 2 r.length)
    else []
  s1 ++ s2 ++ s3 ++ s4 ++ s5

/-! ### Concrete inputs used by witnesses and counterexamples -/

/-- A heatmap whose only positive cell is dated 2021-01-01, which lies in
ISO week (2020, 53): the 52-week walk of analysis year 2021 never sees it. -/
def hmC10 : List (List HCell) := [[⟨5, some ⟨2021, 1, 1⟩⟩]]

/-- 30 Wednesdays, one in each of ISO weeks 1..30 of 2025. -/
def hmC2 : List (List HCell) :=
  [((List.range 30).map (fun k => civilFromDays (rataDie 2025 1 1 + 7 * k))).map
    (fun dt => ⟨1, some dt⟩)]

/-- C3 counterexample, before: one cell in ISO week (2020, 53) (so the walk
of analysis year 2021 finds no active week and the 15.0 branch fires) and a
zero cell on 2021-06-01, whose week is inactive. -/
def hmC3pre : List (List HCell) := [[⟨5, some ⟨2021, 1, 1⟩⟩, ⟨0, some ⟨2021, 6, 1⟩⟩]]

/-- C3 counterexample, after: the inactive week's cell now has 1 contribution. -/
def hmC3post : List (List HCell) := [[⟨5, some ⟨2021, 1, 1⟩⟩, ⟨1, some ⟨2021, 6, 1⟩⟩]]

/-- A deterministic stand-in for `random.sample` (used only to witness the
sampler theorem, whose hypothesis any correct sampler satisfies). -/
def takeSample (l : List Contributor) (k : ℕ) : List Contributor := l.take k

def contribs100 : List Contributor :=
  (List.range 100).map (fun i => ⟨"u", 100 - i⟩)

def prC5 : PRrec := ⟨some ⟨2025, 3, 3⟩⟩

/-! ### Helper lemmas: rounding -/

theorem round2_mono {x y : ℚ} (h : x ≤ y) : round2 x ≤ round2 y := by
  unfold round2
  have h2 : (⌊x * 100 + 1 / 2⌋ : ℤ) ≤ ⌊y * 100 + 1 / 2⌋ :=
    Int.floor_le_floor (by linarith)
  have h3 : ((⌊x * 100 + 1 / 2⌋ : ℤ) : ℚ) ≤ ((⌊y * 100 + 1 / 2⌋ : ℤ) : ℚ) := by
    exact_mod_cast h2
  linarith

theorem round2_int (m : ℤ) : round2 ((m : ℚ)) = m := by
  unfold round2
  have h : (m : ℚ) * 100 + 1 / 2 = 1 / 2 + ((m * 100 : ℤ) : ℚ) := by push_cast; ring
  rw [h, Int.floor_add_int]
  norm_num

theorem round2_bounds {x : ℚ} (h0 : 0 ≤ x) (h100 : x ≤ 100) :
    0 ≤ round2 x ∧ round2 x ≤ 100 := by
  constructor
  · have := round2_mono h0
    rwa [show ((0 : ℚ)) = ((0 : ℤ) : ℚ) by norm_num, round2_int] at this
  · have := round2_mono h100
    rwa [show ((100 : ℚ)) = ((100 : ℤ) : ℚ) by norm_num, round2_int] at this

/-! ### Helper lemmas: guard structure of `calculate_consistency_score` -/

theorem weeklyCommits_of_nil {hm : List (List HCell)} (h : validContribs hm = [])
    (k : ℕ × ℕ) : weeklyCommits hm k = 0 := by
  simp [weeklyCommits, h]

theorem aw_zero_of_no_valid {hm : List (List HCell)} (h : validContribs hm = []) :
    activeWeeksOf hm = 0 := by
  unfold activeWeeksOf awOf walkCommits
  rw [List.countP_eq_zero]
  intro a ha
  rw [List.mem_map] at ha
  obtain ⟨k, _, rfl⟩ := ha
  have hw := weeklyCommits_of_nil h
  simp [hw]

theorem validContribs_ne_of_aw {hm : List (List HCell)}
    (h : activeWeeksOf hm ≠ 0) : validContribs hm ≠ [] :=
  fun hv => h (aw_zero_of_no_valid hv)

theorem extractContribs_ne_of_aw {hm : List (List HCell)}
    (h : activeWeeksOf hm ≠ 0) : extractContribs hm ≠ [] := by
  intro hE
  exact validContribs_ne_of_aw h (by simp [validContribs, hE])

theorem hm_ne_of_aw {hm : List (List HCell)} (h : activeWeeksOf hm ≠ 0) :
    hm ≠ [] := by
  intro hH
  exact extractContribs_ne_of_aw h (by simp [extractContribs, hH])

/-- When the walk finds at least one active week, none of the early returns
fires and the score is the rounded formula-with-floors value. -/
theorem ccs_eq_round2 (hm : List (List HCell)) (h : activeWeeksOf hm ≠ 0) :
    calculate_consistency_score hm = round2 (scoreFromWeeks (walkCommits hm)) := by
  simp only [calculate_consistency_score]
  rw [if_neg (hm_ne_of_aw h), if_neg (extractContribs_ne_of_aw h),
    if_neg (validContribs_ne_of_aw h), if_neg h]

theorem round2_floorFor (aw : ℕ) : round2 (floorFor aw) = floorFor aw := by
  unfold floorFor
  split_ifs <;> norm_num [round2]

theorem ccs_ge_floorFor (hm : List (List HCell)) (h : activeWeeksOf hm ≠ 0) :
    floorFor (activeWeeksOf hm) ≤ calculate_consistency_score hm := by
  rw [ccs_eq_round2 hm h]
  have h1 : floorFor (activeWeeksOf hm) ≤ scoreFromWeeks (walkCommits hm) :=
    le_max_right _ _
  have h2 := round2_mono h1
  rwa [round2_floorFor] at h2

/-- Claim C2: the activity-tier safeguard floors of
`calculate_consistency_score`: at least 65 for 30+ active weeks found by the
52-week walk, 55 for 25+, 45 for 20+, 35 for 15+, 25 for 10+, 15 for 5+ and
10 for 3+, regardless of the raw formula value. -/
theorem C2_safeguard_floors (hm : List (List HCell)) :
    (30 ≤ activeWeeksOf hm → 65 ≤ calculate_consistency_score hm) ∧
    (25 ≤ activeWeeksOf hm → 55 ≤ calculate_consistency_score hm) ∧
    (20 ≤ activeWeeksOf hm → 45 ≤ calculate_consistency_score hm) ∧
    (15 ≤ activeWeeksOf hm → 35 ≤ calculate_consistency_score hm) ∧
    (10 ≤ activeWeeksOf hm → 25 ≤ calculate_consistency_score hm) ∧
    (5 ≤ activeWeeksOf hm → 15 ≤ calculate_consistency_score hm) ∧
    (3 ≤ activeWeeksOf hm → 10 ≤ calculate_consistency_score hm) := by
  refine ⟨?_, ?_, ?_, ?_, ?_, ?_, ?_⟩ <;>
    · intro h
      refine le_trans ?_ (ccs_ge_floorFor hm (by omega))
      unfold floorFor
      split_ifs <;> first | norm_num | (exfalso; omega)

/-- Witness for C2 at the 30-active-week tier. -/
theorem C2_safeguard_floors_witness : 65 ≤ calculate_consistency_score hmC2 :=
  (C2_safeguard_floors hmC2).1 (by decide)

/-- Claim C10: when some positive-count cell has a parseable date (so an
analysis year is chosen) but the 52-week walk of that year marks no week
active, the function returns exactly 15.0, not 0.0. -/
theorem C10_min_score (hm : List (List HCell)) (h1 : validContribs hm ≠ [])
    (h2 : activeWeeksOf hm = 0) : calculate_consistency_score hm = 15 := by
  have he : extractContribs hm ≠ [] := by
    intro hE
    exact h1 (by simp [validContribs, hE])
  have hh : hm ≠ [] := by
    intro hH
    exact he (by simp [extractContribs, hH])
  simp only [calculate_consistency_score]
  rw [if_neg hh, if_neg he, if_neg h1, if_pos h2]

/-- Witness for C10: all contributions of calendar year 2021 in ISO week
(2020, 53). -/
theorem C10_min_score_witness : calculate_consistency_score hmC10 = 15 :=
  C10_min_score hmC10 (by decide) (by decide)

/-! ### Helper lemmas: monotonicity of the weekly formula -/

theorem awOf_mono {cs cs' : List ℕ} (h : List.Forall₂ (· ≤ ·) cs cs') :
    awOf cs ≤ awOf cs' := by
  induction h with
  | nil => exact le_refl _
  | @cons a b as bs hab htl ih =>
    unfold awOf at ih ⊢
    rw [List.countP_cons, List.countP_cons]
    have key : (if (a != 0) = true then 1 else 0) ≤ (if (b != 0) = true then 1 else 0) := by
      by_cases ha : a = 0
      · simp [ha]
      · have hb : b ≠ 0 := by omega
        simp [ha, hb]
    exact Nat.add_le_add ih key

theorem tier_half_le {a b : ℕ} (hab : a ≤ b) :
    tierScore a + (if (b != 0) = true then (1 : ℚ) else 0) / 2 ≤
      tierScore b + (if (a != 0) = true then (1 : ℚ) else 0) / 2 := by
  unfold tierScore
  by_cases ha : a = 0
  · have ha' : (if (a != 0) = true then (1 : ℚ) else 0) = 0 := by simp [ha]
    by_cases hb : b = 0
    · have hb' : (if (b != 0) = true then (1 : ℚ) else 0) = 0 := by simp [hb]
      rw [if_pos ha, if_pos hb, ha', hb']
    · have hb' : (if (b != 0) = true then (1 : ℚ) else 0) = 1 := by simp [hb]
      rw [if_pos ha, if_neg hb, ha', hb']
      split_ifs <;> norm_num
  · have hb : b ≠ 0 := by omega
    have ha' : (if (a != 0) = true then (1 : ℚ) else 0) = 1 := by simp [ha]
    have hb' : (if (b != 0) = true then (1 : ℚ) else 0) = 1 := by simp [hb]
    rw [if_neg ha, if_neg hb, ha', hb']
    split_ifs <;> first | (exfalso; omega) | norm_num

theorem tierSum_bound {cs cs' : List ℕ} (h : List.Forall₂ (· ≤ ·) cs cs') :
    (cs.map tierScore).sum + (awOf cs' : ℚ) / 2 ≤
      (cs'.map tierScore).sum + (awOf cs : ℚ) / 2 := by
  induction h with
  | nil => simp
  | @cons a b as bs hab htl ih =>
    unfold awOf at ih ⊢
    rw [List.map_cons, List.map_cons, List.sum_cons, List.sum_cons,
      List.countP_cons, List.countP_cons]
    have key := tier_half_le hab
    have cast_a : ((List.countP (fun c => c != 0) as + if (a != 0) = true then 1 else 0 : ℕ) : ℚ)
        = (List.countP (fun c => c != 0) as : ℚ) + (if (a != 0) = true then (1 : ℚ) else 0) := by
      split_ifs <;> push_cast <;> ring
    have cast_b : ((List.countP (fun c => c != 0) bs + if (b != 0) = true then 1 else 0 : ℕ) : ℚ)
        = (List.countP (fun c => c != 0) bs : ℚ) + (if (b != 0) = true then (1 : ℚ) else 0) := by
      split_ifs <;> push_cast <;> ring
    rw [cast_a, cast_b]
    linarith

theorem boolMap_eq_of_aw_eq {cs cs' : List ℕ} (h : List.Forall₂ (· ≤ ·) cs cs') :
    awOf cs = awOf cs' →
      cs.map (fun c => c != 0) = cs'.map (fun c => c != 0) := by
  induction h with
  | nil => intro _; rfl
  | @cons a b as bs hab htl ih =>
    intro heq
    unfold awOf at heq
    rw [List.countP_cons, List.countP_cons] at heq
    have hle : awOf as ≤ awOf bs := awOf_mono htl
    unfold awOf at hle
    rw [List.map_cons, List.map_cons]
    by_cases ha : a = 0
    · have ea : (if (a != 0) = true then 1 else 0) = 0 := by simp [ha]
      by_cases hb : b = 0
      · have eb : (if (b != 0) = true then 1 else 0) = 0 := by simp [hb]
        rw [ea, eb] at heq
        have htail : awOf as = awOf bs := by unfold awOf; omega
        have hhead : (a != 0) = (b != 0) := by simp [ha, hb]
        rw [hhead, ih htail]
      · have eb : (if (b != 0) = true then 1 else 0) = 1 := by simp [hb]
        rw [ea, eb] at heq
        exfalso
        omega
    · have hb : b ≠ 0 := by omega
      have ea : (if (a != 0) = true then 1 else 0) = 1 := by simp [ha]
      have eb : (if (b != 0) = true then 1 else 0) = 1 := by simp [hb]
      rw [ea, eb] at heq
      have htail : awOf as = awOf bs := by unfold awOf; omega
      have e1 : (a != 0) = true := by simpa using ha
      have e2 : (b != 0) = true := by simpa using hb
      rw [e1, e2, ih htail]

theorem gapFold_congr {cs : List ℕ} :
    ∀ {cs' : List ℕ},
      cs.map (fun c => c != 0) = cs'.map (fun c => c != 0) →
      ∀ p, cs.foldl gapStep p = cs'.foldl gapStep p := by
  induction cs with
  | nil =>
    intro cs' h p
    rw [List.map_nil] at h
    rw [List.map_eq_nil_iff.mp h.symm]
  | cons a as ih =>
    intro cs' h p
    cases cs' with
    | nil => simp at h
    | cons b bs =>
      rw [List.map_cons, List.map_cons] at h
      injection h with h1 h2
      rw [List.foldl_cons, List.foldl_cons]
      have hstep : gapStep p a = gapStep p b := by
        unfold gapStep
        rw [h1]
      rw [hstep]
      exact ih h2 _

theorem longestGap_congr {cs cs' : List ℕ}
    (h : cs.map (fun c => c != 0) = cs'.map (fun c => c != 0)) :
    longestGapOf cs = longestGapOf cs' := by
  unfold longestGapOf
  rw [gapFold_congr h]

theorem gapFold_le (cs : List ℕ) : ∀ p : ℕ × ℕ,
    (cs.foldl gapStep p).2 ≤ max p.2 (p.1 + cs.length) := by
  induction cs with
  | nil => intro p; simp
  | cons a as ih =>
    intro p
    rw [List.foldl_cons]
    unfold gapStep
    by_cases ha : (a != 0) = true
    · rw [if_pos ha]
      refine le_trans (ih _) (max_le (le_max_left _ _) ?_)
      simp only [List.length_cons]
      exact le_trans (by omega) (le_max_right p.2 _)
    · rw [if_neg ha]
      refine le_trans (ih _) (max_le (max_le (le_max_left _ _) ?_) ?_)
      · simp only [List.length_cons]
        exact le_trans (by omega) (le_max_right p.2 _)
      · simp only [List.length_cons]
        exact le_trans (by omega) (le_max_right p.2 _)

theorem longestGap_le (cs : List ℕ) : longestGapOf cs ≤ cs.length := by
  have h := gapFold_le cs (0, 0)
  unfold longestGapOf
  simpa using h

set_option maxHeartbeats 1000000 in
theorem gapPenalty_nonneg (aw g : ℕ) : 0 ≤ gapPenalty aw g := by
  unfold gapPenalty
  repeat' split
  all_goals positivity

set_option maxHeartbeats 1000000 in
theorem gapPenalty_le_quarter {aw g : ℕ} (hg : g ≤ 52) : gapPenalty aw g ≤ 1 / 4 := by
  unfold gapPenalty
  have hgq : (g : ℚ) ≤ 52 := by exact_mod_cast hg
  have hgq0 : (0 : ℚ) ≤ (g : ℚ) := Nat.cast_nonneg g
  repeat' split
  all_goals first
    | linarith
    | exact le_trans (min_le_left _ _) (by norm_num)

set_option maxHeartbeats 1000000 in
theorem floorFor_mono {a b : ℕ} (h : a ≤ b) : floorFor a ≤ floorFor b := by
  unfold floorFor
  repeat' split
  all_goals first | (exfalso; omega) | norm_num

theorem scoreFromWeeks_mono {cs cs' : List ℕ} (h : List.Forall₂ (· ≤ ·) cs cs')
    (hlen : cs'.length ≤ 52) : scoreFromWeeks cs ≤ scoreFromWeeks cs' := by
  have haw : awOf cs ≤ awOf cs' := awOf_mono h
  have hfl : floorFor (awOf cs) ≤ floorFor (awOf cs') := floorFor_mono haw
  have hsum := tierSum_bound h
  rcases eq_or_lt_of_le haw with heq | hlt
  · have hmaps := boolMap_eq_of_aw_eq h heq
    have hgap : longestGapOf cs = longestGapOf cs' := longestGap_congr hmaps
    have hts : (cs.map tierScore).sum ≤ (cs'.map tierScore).sum := by
      rw [heq] at hsum
      linarith
    simp only [scoreFromWeeks]
    rw [heq, hgap]
    refine max_le_max ?_ (le_refl _)
    refine max_le_max (le_refl _) ?_
    refine min_le_min (le_refl _) ?_
    linarith
  · have h1 : (1 : ℚ) ≤ (awOf cs' : ℚ) - (awOf cs : ℚ) := by
      have h2 : awOf cs + 1 ≤ awOf cs' := hlt
      have h3 : ((awOf cs + 1 : ℕ) : ℚ) ≤ ((awOf cs' : ℕ) : ℚ) := by exact_mod_cast h2
      push_cast at h3
      linarith
    have hg' : longestGapOf cs' ≤ 52 := le_trans (longestGap_le cs') hlen
    have hp' : gapPenalty (awOf cs') (longestGapOf cs') ≤ 1 / 4 :=
      gapPenalty_le_quarter hg'
    have hp : 0 ≤ gapPenalty (awOf cs) (longestGapOf cs) := gapPenalty_nonneg _ _
    simp only [scoreFromWeeks]
    refine max_le_max ?_ hfl
    refine max_le_max (le_refl _) ?_
    refine min_le_min (le_refl _) ?_
    linarith

/-! ### Helper lemmas: effect of changing one cell's count -/

theorem weeklyCommits_insert (rows1 rows2 : List (List HCell)) (pre post : List HCell)
    (dt : Date) (c : ℕ) (k : ℕ × ℕ) :
    weeklyCommits (rows1 ++ (pre ++ ⟨c, some dt⟩ :: post) :: rows2) k
      = weeklyCommits (rows1 ++ (pre ++ post) :: rows2) k
        + (if 0 < c ∧ dt.valid = true ∧ dt.isoKey = k then c else 0) := by
  unfold weeklyCommits validContribs extractContribs
  simp only [List.flatMap_append, List.flatMap_cons, List.filterMap_append,
    List.filterMap_cons, List.filter_append, List.map_append, List.sum_append]
  by_cases hc : 0 < c
  · by_cases hv : dt.valid = true
    · by_cases hk : dt.isoKey = k
      · simp [Option.some_bind, hc, hv, hk]
        omega
      · simp [Option.some_bind, hc, hv, hk]
    · have hv' : dt.valid = false := by simpa using hv
      simp [Option.some_bind, hc, hv']
  · have hc' : c = 0 := by omega
    simp [Option.some_bind, hc', hc]

theorem forall2_le_map {α : Type} (l : List α) (f g : α → ℕ)
    (h : ∀ a ∈ l, f a ≤ g a) : List.Forall₂ (· ≤ ·) (l.map f) (l.map g) := by
  induction l with
  | nil => exact List.Forall₂.nil
  | cons a as ih =>
    rw [List.map_cons, List.map_cons]
    exact List.Forall₂.cons (h a (List.mem_cons_self a as))
      (ih fun x hx => h x (List.mem_cons_of_mem a hx))

/-- Claim C3 (amended): increasing one cell's count never decreases the
consistency score, provided the analysis year is unchanged by the increase
and the original walk already has an active week (otherwise the score can
drop, see the counterexample). -/
theorem C3_amended_mono (rows1 rows2 : List (List HCell)) (pre post : List HCell)
    (dt : Date) (c c' : ℕ) (hcc : c ≤ c')
    (hay : analysisYear (rows1 ++ (pre ++ ⟨c', some dt⟩ :: post) :: rows2)
      = analysisYear (rows1 ++ (pre ++ ⟨c, some dt⟩ :: post) :: rows2))
    (haw : 1 ≤ activeWeeksOf (rows1 ++ (pre ++ ⟨c, some dt⟩ :: post) :: rows2)) :
    calculate_consistency_score (rows1 ++ (pre ++ ⟨c, some dt⟩ :: post) :: rows2)
      ≤ calculate_consistency_score (rows1 ++ (pre ++ ⟨c', some dt⟩ :: post) :: rows2) := by
  have hwk : ∀ k, weeklyCommits (rows1 ++ (pre ++ ⟨c, some dt⟩ :: post) :: rows2) k
      ≤ weeklyCommits (rows1 ++ (pre ++ ⟨c', some dt⟩ :: post) :: rows2) k := by
    intro k
    rw [weeklyCommits_insert, weeklyCommits_insert]
    have hite : (if 0 < c ∧ dt.valid = true ∧ dt.isoKey = k then c else 0)
        ≤ (if 0 < c' ∧ dt.valid = true ∧ dt.isoKey = k then c' else 0) := by
      by_cases hP : dt.valid = true ∧ dt.isoKey = k
      · by_cases hc0 : 0 < c
        · rw [if_pos ⟨hc0, hP⟩, if_pos ⟨by omega, hP⟩]
          exact hcc
        · rw [if_neg (by tauto)]
          exact Nat.zero_le _
      · rw [if_neg (by tauto), if_neg (by tauto)]
    omega
  have hwalk : List.Forall₂ (· ≤ ·)
      (walkCommits (rows1 ++ (pre ++ ⟨c, some dt⟩ :: post) :: rows2))
      (walkCommits (rows1 ++ (pre ++ ⟨c', some dt⟩ :: post) :: rows2)) := by
    unfold walkCommits
    rw [hay]
    apply forall2_le_map
    intro k _
    dsimp only
    by_cases hcond :
        (isoKeyRD (yearStartRD (analysisYear (rows1 ++ (pre ++ ⟨c, some dt⟩ :: post) :: rows2)) + 7 * k)).1
          = analysisYear (rows1 ++ (pre ++ ⟨c, some dt⟩ :: post) :: rows2)
    · rw [if_pos hcond, if_pos hcond]
      exact hwk _
    · rw [if_neg hcond, if_neg hcond]
  have haw2 : activeWeeksOf (rows1 ++ (pre ++ ⟨c, some dt⟩ :: post) :: rows2)
      ≤ activeWeeksOf (rows1 ++ (pre ++ ⟨c', some dt⟩ :: post) :: rows2) := awOf_mono hwalk
  have hlen : (walkCommits (rows1 ++ (pre ++ ⟨c', some dt⟩ :: post) :: rows2)).length ≤ 52 := by
    unfold walkCommits
    simp
  rw [ccs_eq_round2 _ (by omega), ccs_eq_round2 _ (by omega)]
  exact round2_mono (scoreFromWeeks_mono hwalk hlen)

/-- Witness for the amended C3: turning the (inactive) week of 2025-01-08 from
0 to 1 contribution, with 2025 the analysis year throughout. -/
theorem C3_amended_mono_witness :
    calculate_consistency_score [[⟨5, some ⟨2025, 1, 1⟩⟩, ⟨0, some ⟨2025, 1, 8⟩⟩]]
      ≤ calculate_consistency_score [[⟨5, some ⟨2025, 1, 1⟩⟩, ⟨1, some ⟨2025, 1, 8⟩⟩]] :=
  C3_amended_mono [] [] [⟨5, some ⟨2025, 1, 1⟩⟩] [] ⟨2025, 1, 8⟩ 0 1
    (by decide) (by decide) (by decide)

/-- Counterexample data helper: the 52 weekly totals of `hmC3post`. -/
theorem C3_walk_eval : walkCommits hmC3post =
    List.replicate 21 0 ++ 1 :: List.replicate 30 0 := by decide

set_option maxHeartbeats 2000000 in
/-- Counterexample to claim C3 as stated: converting the inactive week of
2021-06-01 (ISO week (2021, 22); `weeklyCommits` is 0 there) from 0 to 1
contribution DECREASES the score from 15.0 to 0.96, because the walk of
`hmC3pre` has no active week (its only contributions sit in ISO week
(2020, 53)) and the active_weeks == 0 branch returns the minimum 15.0. -/
theorem C3_counterexample :
    weeklyCommits hmC3pre (Date.isoKey ⟨2021, 6, 1⟩) = 0 ∧
    calculate_consistency_score hmC3post < calculate_consistency_score hmC3pre := by
  constructor
  · decide
  · have hpre : calculate_consistency_score hmC3pre = 15 := by
      simp only [calculate_consistency_score]
      rw [if_neg (by decide), if_neg (by decide), if_neg (by decide), if_pos (by decide)]
    have ha : awOf (List.replicate 21 0 ++ 1 :: List.replicate 30 0) = 1 := by decide
    have hg : longestGapOf (List.replicate 21 0 ++ 1 :: List.replicate 30 0) = 30 := by
      decide
    have hs : (((List.replicate 21 0 ++ 1 :: List.replicate 30 0) : List ℕ).map
        tierScore).sum = 1 / 2 := by
      have t0 : tierScore 0 = 0 := by norm_num [tierScore]
      have t1 : tierScore 1 = 1 / 2 := by norm_num [tierScore]
      rw [List.map_append, List.map_replicate, List.map_cons, List.map_replicate,
        List.sum_append, List.sum_cons, List.sum_replicate, List.sum_replicate, t0, t1]
      norm_num
    have hgp : gapPenalty 1 30 = 9 / 104 := by
      norm_num [gapPenalty, min_def]
    have hfl : floorFor 1 = 0 := by norm_num [floorFor]
    have hpost : calculate_consistency_score hmC3post = 24 / 25 := by
      rw [ccs_eq_round2 _ (by decide), C3_walk_eval]
      simp only [scoreFromWeeks, ha, hg, hs, hgp, hfl]
      norm_num [round2, min_def, max_def]
    rw [hpre, hpost]
    norm_num

/-! ### Helper lemmas: heatmap builder grid -/

theorem gridStep_apply_ne {y : ℕ} {k : ℕ × ℕ} {e : ℕ × Option Date}
    (g : ℕ × ℕ → ℕ × Option Date) (h : eventKeyOf y e ≠ some k) :
    gridStep y g e k = g k := by
  unfold gridStep
  unfold eventKeyOf at h
  cases he : e.2 with
  | none => rfl
  | some dt =>
    rw [he] at h
    dsimp only at h ⊢
    by_cases hv : dt.valid ∧ dt.y = y
    · rw [if_pos hv]
      rw [if_pos hv] at h
      have hkk : k ≠ eventKey y dt.rd := fun hk2 => h (by rw [hk2])
      rw [if_neg hkk]
    · rw [if_neg hv]

theorem gridStep_count {y : ℕ} {k : ℕ × ℕ} {e : ℕ × Option Date}
    (g : ℕ × ℕ → ℕ × Option Date) :
    ((gridStep y g e) k).1 = (g k).1 + eventCount y k e := by
  unfold gridStep eventCount
  cases he : e.2 with
  | none => rfl
  | some dt =>
    dsimp only
    by_cases hv : dt.valid ∧ dt.y = y
    · rw [if_pos hv]
      by_cases hk : k = eventKey y dt.rd
      · rw [if_pos hk, if_pos (And.intro hv hk)]
      · rw [if_neg hk, if_neg (by tauto)]
        omega
    · rw [if_neg hv, if_neg (by tauto)]
      omega

theorem gridOf_not_assigned {y : ℕ} {k : ℕ × ℕ} :
    ∀ (events : List (ℕ × Option Date)) (g0 : ℕ × ℕ → ℕ × Option Date),
      k ∉ assignedKeys events y →
      (events.foldl (gridStep y) g0) k = g0 k := by
  intro events
  induction events with
  | nil => intro g0 _; rfl
  | cons e es ih =>
    intro g0 hk
    unfold assignedKeys at hk
    rw [List.filterMap_cons] at hk
    have h1 : eventKeyOf y e ≠ some k := by
      intro heq
      rw [heq] at hk
      exact hk (List.mem_cons_self _ _)
    have h2 : k ∉ assignedKeys es y := by
      intro hmem
      apply hk
      unfold assignedKeys at hmem
      cases heo : eventKeyOf y e with
      | none => exact hmem
      | some a => exact List.mem_cons_of_mem _ hmem
    rw [List.foldl_cons, ih _ h2, gridStep_apply_ne _ h1]

theorem gridCount_eq_sum {y : ℕ} {k : ℕ × ℕ} :
    ∀ (events : List (ℕ × Option Date)) (g0 : ℕ × ℕ → ℕ × Option Date),
      ((events.foldl (gridStep y) g0) k).1
        = (g0 k).1 + (events.map (eventCount y k)).sum := by
  intro events
  induction events with
  | nil => intro g0; simp
  | cons e es ih =>
    intro g0
    rw [List.foldl_cons, ih _, List.map_cons, List.sum_cons, gridStep_count]
    omega

theorem buildYear_length (events : List (ℕ × Option Date)) (y : ℕ) :
    (buildYear events y).length = 364 := by
  unfold buildYear
  rw [List.length_map]
  decide

theorem mem_buildYear {events : List (ℕ × Option Date)} {y : ℕ} {cl : HMCell}
    (h : cl ∈ buildYear events y) :
    ∃ k ∈ gridKeys, cl.week = k.1 ∧ cl.day = k.2 ∧
      cl.count = (gridOf events y k).1 ∧
      cl.date = (match (gridOf events y k).2 with
        | some dt => dt
        | none => civilFromDays (startOfFirstWeek y + (k.1 * 7 + k.2))) := by
  unfold buildYear at h
  rw [List.mem_map] at h
  obtain ⟨k, hk, rfl⟩ := h
  exact ⟨k, hk, rfl, rfl, rfl, rfl⟩

theorem mem_heatmap_years {E : List (ℕ × Option Date)} {y : ℕ} {cells : List HMCell}
    (h : (y, cells) ∈ [2024, 2025, 2026].map (fun y2 => (y2, buildYear E y2))) :
    cells = buildYear E y := by
  rw [List.mem_map] at h
  obtain ⟨y2, _, heq⟩ := h
  injection heq with h1 h2
  rw [← h1]
  exact h2.symm

theorem buildYear_zero_fill {E : List (ℕ × Option Date)} {y : ℕ} {cl : HMCell}
    (hcl : cl ∈ buildYear E y)
    (hna : (cl.week, cl.day) ∉ assignedKeys E y) :
    cl.count = 0 ∧
      cl.date = civilFromDays (startOfFirstWeek y + (cl.week * 7 + cl.day)) := by
  obtain ⟨k, _, hw, hd, hc, hdate⟩ := mem_buildYear hcl
  have hkk : (cl.week, cl.day) = k := by rw [hw, hd]
  rw [hkk] at hna
  have hg : gridOf E y k = (0, none) := gridOf_not_assigned E _ hna
  constructor
  · rw [hc, hg]
  · rw [hdate, hg, hw, hd]

/-- Claim C4: both heatmap builders emit exactly 52×7 = 364 cells for each
generated year (2024, 2025, 2026) for every input, including empty ones, and
any cell whose grid position received no event has count 0 and the date
inferred from its week/day position. -/
theorem C4_heatmap_shape (commits : List Commit) (contribs : List Contribution)
    (prs : List PRrec) :
    (∀ y cells, (y, cells) ∈ generate_contribution_heatmap commits prs →
      cells.length = 364 ∧
      ∀ cl ∈ cells, (cl.week, cl.day) ∉ assignedKeys (eventsOfCommitsPRs commits prs) y →
        cl.count = 0 ∧
          cl.date = civilFromDays (startOfFirstWeek y + (cl.week * 7 + cl.day))) ∧
    (∀ y cells, (y, cells) ∈ generate_heatmap_from_contributions contribs prs →
      cells.length = 364 ∧
      ∀ cl ∈ cells, (cl.week, cl.day) ∉ assignedKeys (eventsOfContribsPRs contribs prs) y →
        cl.count = 0 ∧
          cl.date = civilFromDays (startOfFirstWeek y + (cl.week * 7 + cl.day))) := by
  constructor
  · intro y cells hmem
    have hcells : cells = buildYear (eventsOfCommitsPRs commits prs) y :=
      mem_heatmap_years hmem
    subst hcells
    exact ⟨buildYear_length _ _, fun cl hcl hna => buildYear_zero_fill hcl hna⟩
  · intro y cells hmem
    have hcells : cells = buildYear (eventsOfContribsPRs contribs prs) y :=
      mem_heatmap_years hmem
    subst hcells
    exact ⟨buildYear_length _ _, fun cl hcl hna => buildYear_zero_fill hcl hna⟩

/-- Witness for C4 on empty inputs at year 2024. -/
theorem C4_heatmap_shape_witness :
    (buildYear (eventsOfCommitsPRs [] []) 2024).length = 364 :=
  ((C4_heatmap_shape [] [] []).1 2024 (buildYear (eventsOfCommitsPRs [] []) 2024)
    (List.mem_map.mpr ⟨2024, by decide, rfl⟩)).1

theorem buildYear_count_sum {E : List (ℕ × Option Date)} {y : ℕ} {cl : HMCell}
    (h : cl ∈ buildYear E y) :
    cl.count = (E.map (eventCount y (cl.week, cl.day))).sum := by
  obtain ⟨k, _, hw, hd, hc, _⟩ := mem_buildYear h
  have hkk : (cl.week, cl.day) = k := by rw [hw, hd]
  rw [hkk, hc]
  unfold gridOf
  rw [gridCount_eq_sum]
  simp

theorem eventCount_some {y : ℕ} {k : ℕ × ℕ} {dt : Date} (w : ℕ)
    (hv : dt.valid = true) (hy : dt.y = y) :
    eventCount y k (w, some dt) = (if k = eventKey y dt.rd then w else 0) := by
  unfold eventCount
  dsimp only
  by_cases hk : k = eventKey y dt.rd
  · rw [if_pos hk, if_pos (And.intro (And.intro hv hy) hk)]
  · rw [if_neg hk, if_neg (by tauto)]

/-- Claim C5: in both heatmap builders, a merged PR whose `merged_at` date
falls inside the generated year adds exactly 2 to the raw count of its
cell; a single commit adds 1; a contribution event adds its own count. -/
theorem C5_event_weights (commits : List Commit) (contribs : List Contribution)
    (prs : List PRrec) (y : ℕ) :
    (∀ (pr : PRrec) (dt : Date), pr.merged_at = some dt → dt.valid = true → dt.y = y →
      ∀ cells cells', (y, cells) ∈ generate_contribution_heatmap commits prs →
        (y, cells') ∈ generate_contribution_heatmap commits (prs ++ [pr]) →
        ∀ cl ∈ cells, ∀ cl' ∈ cells', cl'.week = cl.week → cl'.day = cl.day →
          cl'.count = cl.count + (if (cl.week, cl.day) = eventKey y dt.rd then 2 else 0)) ∧
    (∀ (cm : Commit) (dt : Date), cm.date = some dt → dt.valid = true → dt.y = y →
      ∀ cells cells', (y, cells) ∈ generate_contribution_heatmap commits prs →
        (y, cells') ∈ generate_contribution_heatmap (commits ++ [cm]) prs →
        ∀ cl ∈ cells, ∀ cl' ∈ cells', cl'.week = cl.week → cl'.day = cl.day →
          cl'.count = cl.count + (if (cl.week, cl.day) = eventKey y dt.rd then 1 else 0)) ∧
    (∀ (cb : Contribution) (dt : Date), cb.date = some dt → dt.valid = true → dt.y = y →
      ∀ cells cells', (y, cells) ∈ generate_heatmap_from_contributions contribs prs →
        (y, cells') ∈ generate_heatmap_from_contributions (contribs ++ [cb]) prs →
        ∀ cl ∈ cells, ∀ cl' ∈ cells', cl'.week = cl.week → cl'.day = cl.day →
          cl'.count = cl.count + (if (cl.week, cl.day) = eventKey y dt.rd then cb.count else 0)) := by
  refine ⟨?_, ?_, ?_⟩
  · intro pr dt hpr hv hy cells cells' hmem hmem' cl hcl cl' hcl' hw hd
    have hcells : cells = buildYear (eventsOfCommitsPRs commits prs) y :=
      mem_heatmap_years hmem
    have hcells' : cells' = buildYear (eventsOfCommitsPRs commits (prs ++ [pr])) y :=
      mem_heatmap_years hmem'
    subst hcells hcells'
    have h1 := buildYear_count_sum hcl
    have h2 := buildYear_count_sum hcl'
    rw [hw, hd] at h2
    have hE : eventsOfCommitsPRs commits (prs ++ [pr])
        = eventsOfCommitsPRs commits prs ++ [(2, pr.merged_at)] := by
      unfold eventsOfCommitsPRs
      rw [List.map_append, ← List.append_assoc]
      rfl
    rw [hE, List.map_append, List.sum_append] at h2
    have he : eventCount y (cl.week, cl.day) (2, pr.merged_at)
        = (if (cl.week, cl.day) = eventKey y dt.rd then 2 else 0) := by
      rw [hpr]
      exact eventCount_some 2 hv hy
    rw [h1, h2, List.map_cons, List.map_nil, List.sum_cons, List.sum_nil, he]
    omega
  · intro cm dt hcm hv hy cells cells' hmem hmem' cl hcl cl' hcl' hw hd
    have hcells : cells = buildYear (eventsOfCommitsPRs commits prs) y :=
      mem_heatmap_years hmem
    have hcells' : cells' = buildYear (eventsOfCommitsPRs (commits ++ [cm]) prs) y :=
      mem_heatmap_years hmem'
    subst hcells hcells'
    have h1 := buildYear_count_sum hcl
    have h2 := buildYear_count_sum hcl'
    rw [hw, hd] at h2
    have hE : eventsOfCommitsPRs (commits ++ [cm]) prs
        = (commits.map (fun c => (1, c.date)) ++ [(1, cm.date)])
          ++ prs.map (fun p => (2, p.merged_at)) := by
      unfold eventsOfCommitsPRs
      rw [List.map_append]
      rfl
    rw [hE, List.map_append, List.map_append, List.sum_append, List.sum_append] at h2
    have h1' : cl.count
        = (commits.map (fun c => (1, c.date)) |>.map (eventCount y (cl.week, cl.day))).sum
          + (prs.map (fun p => (2, p.merged_at)) |>.map (eventCount y (cl.week, cl.day))).sum := by
      rw [h1]
      unfold eventsOfCommitsPRs
      rw [List.map_append, List.sum_append]
    have he : eventCount y (cl.week, cl.day) (1, cm.date)
        = (if (cl.week, cl.day) = eventKey y dt.rd then 1 else 0) := by
      rw [hcm]
      exact eventCount_some 1 hv hy
    rw [h2, h1', List.map_cons, List.map_nil, List.sum_cons, List.sum_nil, he]
    omega
  · intro cb dt hcb hv hy cells cells' hmem hmem' cl hcl cl' hcl' hw hd
    have hcells : cells = buildYear (eventsOfContribsPRs contribs prs) y :=
      mem_heatmap_years hmem
    have hcells' : cells' = buildYear (eventsOfContribsPRs (contribs ++ [cb]) prs) y :=
      mem_heatmap_years hmem'
    subst hcells hcells'
    have h1 := buildYear_count_sum hcl
    have h2 := buildYear_count_sum hcl'
    rw [hw, hd] at h2
    have hE : eventsOfContribsPRs (contribs ++ [cb]) prs
        = (contribs.map (fun c => (c.count, c.date)) ++ [(cb.count, cb.date)])
          ++ prs.map (fun p => (2, p.merged_at)) := by
      unfold eventsOfContribsPRs
      rw [List.map_append]
      rfl
    rw [hE, List.map_append, List.map_append, List.sum_append, List.sum_append] at h2
    have h1' : cl.count
        = (contribs.map (fun c => (c.count, c.date)) |>.map (eventCount y (cl.week, cl.day))).sum
          + (prs.map (fun p => (2, p.merged_at)) |>.map (eventCount y (cl.week, cl.day))).sum := by
      rw [h1]
      unfold eventsOfContribsPRs
      rw [List.map_append, List.sum_append]
    have he : eventCount y (cl.week, cl.day) (cb.count, cb.date)
        = (if (cl.week, cl.day) = eventKey y dt.rd then cb.count else 0) := by
      rw [hcb]
      exact eventCount_some cb.count hv hy
    rw [h2, h1', List.map_cons, List.map_nil, List.sum_cons, List.sum_nil, he]
    omega

/-- Witness for C5: adding one merged PR dated 2025-03-03 to empty inputs
raises the count of cell (week 9, Monday) from 0 to 2. -/
theorem C5_event_weights_witness :
    (2 : ℕ) = 0 + (if ((9, 0) : ℕ × ℕ) = eventKey 2025 (Date.rd ⟨2025, 3, 3⟩) then 2 else 0) :=
  (C5_event_weights [] [] [] 2025).1 prC5 ⟨2025, 3, 3⟩ rfl (by decide) rfl
    (buildYear (eventsOfCommitsPRs [] []) 2025)
    (buildYear (eventsOfCommitsPRs [] ([] ++ [prC5])) 2025)
    (List.mem_map.mpr ⟨2025, by decide, rfl⟩)
    (List.mem_map.mpr ⟨2025, by decide, rfl⟩)
    ⟨9, 0, 0, 0, ⟨2025, 3, 3⟩⟩
    (List.mem_map.mpr ⟨(9, 0), by decide, by decide⟩)
    ⟨9, 0, 4, 2, ⟨2025, 3, 3⟩⟩
    (List.mem_map.mpr ⟨(9, 0), by decide, by decide⟩)
    rfl rfl

/-! ### Helper lemmas: aggregator sub-score bounds -/

theorem pr_count_score_bounds (t : ℤ) :
    0 ≤ pr_count_score t ∧ pr_count_score t ≤ 100 := by
  unfold pr_count_score
  repeat' split
  all_goals norm_num

theorem frequency_score_bounds (avg : ℚ) :
    0 ≤ frequency_score avg ∧ frequency_score avg ≤ 100 := by
  unfold frequency_score
  repeat' split
  all_goals norm_num

theorem score_num_repos_bounds (n : ℤ) :
    0 ≤ score_num_repos n ∧ score_num_repos n ≤ 100 := by
  unfold score_num_repos
  repeat' split
  all_goals norm_num

theorem clamp_bounds (x : ℚ) :
    0 ≤ max 0 (min 100 x) ∧ max 0 (min 100 x) ≤ 100 :=
  ⟨le_max_left _ _, max_le (by norm_num) (min_le_left _ _)⟩

theorem score_pr_activity_bounds (t : ℤ) (avg : ℚ) :
    0 ≤ score_pr_activity t avg ∧ score_pr_activity t avg ≤ 100 := by
  obtain ⟨h1, h2⟩ := pr_count_score_bounds t
  obtain ⟨h3, h4⟩ := frequency_score_bounds avg
  unfold score_pr_activity
  exact round2_bounds (by linarith) (by linarith)

theorem score_consistency_bounds (c : ℚ) :
    0 ≤ score_consistency c ∧ score_consistency c ≤ 100 := by
  unfold score_consistency
  obtain ⟨h1, h2⟩ := clamp_bounds c
  exact round2_bounds h1 h2

theorem score_comment_quality_bounds (v : Option ℚ) :
    0 ≤ score_comment_quality v ∧ score_comment_quality v ≤ 100 := by
  unfold score_comment_quality
  cases v with
  | none => norm_num
  | some x =>
    obtain ⟨h1, h2⟩ := clamp_bounds (x * 20)
    exact round2_bounds h1 h2

theorem score_pr_quality_bounds (v : Option ℚ) :
    0 ≤ score_pr_quality v ∧ score_pr_quality v ≤ 100 := by
  unfold score_pr_quality
  cases v with
  | none => norm_num
  | some x =>
    obtain ⟨h1, h2⟩ := clamp_bounds (x * 20)
    exact round2_bounds h1 h2

theorem score_time_taken_bounds (v : Option ℚ) :
    0 ≤ score_time_taken v ∧ score_time_taken v ≤ 100 := by
  unfold score_time_taken
  cases v with
  | none => norm_num
  | some x =>
    obtain ⟨h1, h2⟩ := clamp_bounds (x * 20)
    exact round2_bounds h1 h2

/-- Claim C1 (amended): every breakdown entry of `calculate_git_score` lies
in [0, 100], and the returned `git_score` is the arithmetic mean of the six
sub-scores clamped to [0, 100] AND THEN ROUNDED to two decimals (the
rounding is what the original claim omits); in particular the result always
lies in [0, 100]. -/
theorem C1_amended (pm : ProfileMetrics) (am : AgentMetrics) :
    (0 ≤ (calculate_git_score pm am).breakdown.pr_activity ∧
      (calculate_git_score pm am).breakdown.pr_activity ≤ 100) ∧
    (0 ≤ (calculate_git_score pm am).breakdown.consistency ∧
      (calculate_git_score pm am).breakdown.consistency ≤ 100) ∧
    (0 ≤ (calculate_git_score pm am).breakdown.comment_quality ∧
      (calculate_git_score pm am).breakdown.comment_quality ≤ 100) ∧
    (0 ≤ (calculate_git_score pm am).breakdown.pr_quality ∧
      (calculate_git_score pm am).breakdown.pr_quality ≤ 100) ∧
    (0 ≤ (calculate_git_score pm am).breakdown.time_taken ∧
      (calculate_git_score pm am).breakdown.time_taken ≤ 100) ∧
    (0 ≤ (calculate_git_score pm am).breakdown.num_repos ∧
      (calculate_git_score pm am).breakdown.num_repos ≤ 100) ∧
    (calculate_git_score pm am).git_score
      = round2 (max 0 (min 100 (((calculate_git_score pm am).breakdown.pr_activity
          + (calculate_git_score pm am).breakdown.consistency
          + (calculate_git_score pm am).breakdown.comment_quality
          + (calculate_git_score pm am).breakdown.pr_quality
          + (calculate_git_score pm am).breakdown.time_taken
          + (calculate_git_score pm am).breakdown.num_repos) / 6))) ∧
    (0 ≤ (calculate_git_score pm am).git_score ∧
      (calculate_git_score pm am).git_score ≤ 100) := by
  refine ⟨score_pr_activity_bounds _ _, score_consistency_bounds _,
    score_comment_quality_bounds _, score_pr_quality_bounds _,
    score_time_taken_bounds _, score_num_repos_bounds _, rfl, ?_⟩
  obtain ⟨h1, h2⟩ := clamp_bounds
    ((score_pr_activity pm.total_prs_merged pm.avg_prs_per_week
      + score_consistency pm.consistency_score
      + score_comment_quality am.comment_quality
      + score_pr_quality am.pr_quality
      + score_time_taken am.time_taken
      + score_num_repos pm.num_repos) / 6)
  exact round2_bounds h1 h2

/-- Counterexample to claim C1 as stated: with one merged PR, consistency
1.0 and no agent metrics, the six sub-scores are 18, 1, 50, 50, 50, 0; their
clamped mean is 169/6 = 28.1666…, but the function returns the rounded
value 28.17. -/
theorem C1_counterexample :
    (calculate_git_score ⟨1, 0, 1, 0⟩ ⟨none, none, none⟩).git_score ≠
      max 0 (min 100 (((calculate_git_score ⟨1, 0, 1, 0⟩ ⟨none, none, none⟩).breakdown.pr_activity
        + (calculate_git_score ⟨1, 0, 1, 0⟩ ⟨none, none, none⟩).breakdown.consistency
        + (calculate_git_score ⟨1, 0, 1, 0⟩ ⟨none, none, none⟩).breakdown.comment_quality
        + (calculate_git_score ⟨1, 0, 1, 0⟩ ⟨none, none, none⟩).breakdown.pr_quality
        + (calculate_git_score ⟨1, 0, 1, 0⟩ ⟨none, none, none⟩).breakdown.time_taken
        + (calculate_git_score ⟨1, 0, 1, 0⟩ ⟨none, none, none⟩).breakdown.num_repos) / 6)) := by
  have e1 : (calculate_git_score ⟨1, 0, 1, 0⟩ ⟨none, none, none⟩).breakdown.pr_activity = 18 := by
    show score_pr_activity 1 0 = 18
    norm_num [score_pr_activity, pr_count_score, frequency_score, round2]
  have e2 : (calculate_git_score ⟨1, 0, 1, 0⟩ ⟨none, none, none⟩).breakdown.consistency = 1 := by
    show score_consistency 1 = 1
    norm_num [score_consistency, round2, min_def, max_def]
  have e3 : (calculate_git_score ⟨1, 0, 1, 0⟩ ⟨none, none, none⟩).breakdown.comment_quality = 50 := rfl
  have e4 : (calculate_git_score ⟨1, 0, 1, 0⟩ ⟨none, none, none⟩).breakdown.pr_quality = 50 := rfl
  have e5 : (calculate_git_score ⟨1, 0, 1, 0⟩ ⟨none, none, none⟩).breakdown.time_taken = 50 := rfl
  have e6 : (calculate_git_score ⟨1, 0, 1, 0⟩ ⟨none, none, none⟩).breakdown.num_repos = 0 := by
    show score_num_repos 0 = 0
    norm_num [score_num_repos]
  have eg : (calculate_git_score ⟨1, 0, 1, 0⟩ ⟨none, none, none⟩).git_score = 2817 / 100 := by
    show round2 (max 0 (min 100 ((score_pr_activity 1 0 + score_consistency 1
      + score_comment_quality none + score_pr_quality none + score_time_taken none
      + score_num_repos 0) / 6))) = 2817 / 100
    have f1 : score_pr_activity 1 0 = 18 := by
      norm_num [score_pr_activity, pr_count_score, frequency_score, round2]
    have f2 : score_consistency 1 = 1 := by
      norm_num [score_consistency, round2, min_def, max_def]
    have f6 : score_num_repos 0 = 0 := by norm_num [score_num_repos]
    rw [f1, f2, f6]
    show round2 (max 0 (min 100 ((18 + 1 + 50 + 50 + 50 + 0) / 6))) = 2817 / 100
    norm_num [round2, min_def, max_def]
  rw [eg, e1, e2, e3, e4, e5, e6]
  norm_num [min_def, max_def]

/-- Claim C9 (amended): with `agent_metrics` missing a value, the matching
breakdown entry is exactly 50.0; with a value `v` present, the entry is
`v*20` clamped to [0, 100] AND THEN ROUNDED to two decimals (the rounding
is what the original claim omits). -/
theorem C9_amended (pm : ProfileMetrics) (am : AgentMetrics) :
    (am.comment_quality = none →
      (calculate_git_score pm am).breakdown.comment_quality = 50) ∧
    (am.pr_quality = none → (calculate_git_score pm am).breakdown.pr_quality = 50) ∧
    (am.time_taken = none → (calculate_git_score pm am).breakdown.time_taken = 50) ∧
    (∀ v, am.comment_quality = some v →
      (calculate_git_score pm am).breakdown.comment_quality
        = round2 (max 0 (min 100 (v * 20)))) ∧
    (∀ v, am.pr_quality = some v →
      (calculate_git_score pm am).breakdown.pr_quality
        = round2 (max 0 (min 100 (v * 20)))) ∧
    (∀ v, am.time_taken = some v →
      (calculate_git_score pm am).breakdown.time_taken
        = round2 (max 0 (min 100 (v * 20)))) := by
  refine ⟨?_, ?_, ?_, ?_, ?_, ?_⟩
  · intro h
    show score_comment_quality am.comment_quality = 50
    rw [h]
    rfl
  · intro h
    show score_pr_quality am.pr_quality = 50
    rw [h]
    rfl
  · intro h
    show score_time_taken am.time_taken = 50
    rw [h]
    rfl
  · intro v h
    show score_comment_quality am.comment_quality = _
    rw [h]
    rfl
  · intro v h
    show score_pr_quality am.pr_quality = _
    rw [h]
    rfl
  · intro v h
    show score_time_taken am.time_taken = _
    rw [h]
    rfl

/-- Witness for C9: empty agent metrics give exactly 50.0. -/
theorem C9_amended_witness :
    (calculate_git_score ⟨0, 0, 0, 0⟩ ⟨none, none, none⟩).breakdown.comment_quality = 50 :=
  (C9_amended ⟨0, 0, 0, 0⟩ ⟨none, none, none⟩).1 rfl

/-- Counterexample to claim C9 as stated: for `v = 1/10000` (a legal value
on the 0-5 scale) the stored entry is `round(0.002, 2) = 0.0`, not the
clamped `v*20 = 0.002`. -/
theorem C9_counterexample :
    (calculate_git_score ⟨0, 0, 0, 0⟩ ⟨some (1 / 10000), none, none⟩).breakdown.comment_quality
      ≠ max 0 (min 100 ((1 / 10000) * 20)) := by
  have h : (calculate_git_score ⟨0, 0, 0, 0⟩
      ⟨some (1 / 10000), none, none⟩).breakdown.comment_quality = 0 := by
    show score_comment_quality (some (1 / 10000)) = 0
    norm_num [score_comment_quality, round2, min_def, max_def]
  rw [h]
  norm_num [min_def, max_def]

/-! ### Helper lemmas: label scoring and the contributor sampler -/

theorem label_score_eq_count (labels : List Label) :
    calculate_label_score labels
      = 10 * (PRIORITY_LABELS.countP
          (fun p => (labels.map (fun l => strLower l.name)).any
            (fun name => pyIn (strLower p) name)) : ℕ) := by
  unfold calculate_label_score
  suffices h : ∀ (ps : List String) (init : ℚ),
      ps.foldl (fun score priority_label =>
        if (labels.map (fun l => strLower l.name)).any
            (fun name => pyIn (strLower priority_label) name) then score + 10
        else score) init
        = init + 10 * (ps.countP
            (fun p => (labels.map (fun l => strLower l.name)).any
              (fun name => pyIn (strLower p) name)) : ℕ) by
    have h2 := h PRIORITY_LABELS 0
    rw [h2]
    ring
  intro ps
  induction ps with
  | nil => intro init; simp
  | cons p ps ih =>
    intro init
    rw [List.foldl_cons, List.countP_cons]
    by_cases hc : ((labels.map (fun l => strLower l.name)).any
        (fun name => pyIn (strLower p) name)) = true
    · rw [if_pos hc, ih, if_pos hc]
      push_cast
      ring
    · rw [if_neg hc, ih, if_neg hc]
      push_cast
      ring

/-- Claim C7: the label score is +10 for each vocabulary entry of
`PRIORITY_LABELS` matched case-insensitively (as a substring) by some label
name; it is not capped by the number of labels, but is bounded by the
vocabulary size: 7 entries, so at most 70. -/
theorem C7_label_score (labels : List Label) :
    calculate_label_score labels
      = 10 * (PRIORITY_LABELS.countP
          (fun p => (labels.map (fun l => strLower l.name)).any
            (fun name => pyIn (strLower p) name)) : ℕ) ∧
    calculate_label_score labels ≤ 70 := by
  refine ⟨label_score_eq_count labels, ?_⟩
  rw [label_score_eq_count labels]
  have h1 : (PRIORITY_LABELS.countP
      (fun p => (labels.map (fun l => strLower l.name)).any
        (fun name => pyIn (strLower p) name))) ≤ 7 := by
    have h2 := List.countP_le_length (l := PRIORITY_LABELS)
      (p := fun p => (labels.map (fun l => strLower l.name)).any
        (fun name => pyIn (strLower p) name))
    simpa [PRIORITY_LABELS] using h2
  have h3 : ((PRIORITY_LABELS.countP
      (fun p => (labels.map (fun l => strLower l.name)).any
        (fun name => pyIn (strLower p) name)) : ℕ) : ℚ) ≤ 7 := by
    exact_mod_cast h1
  linarith

/-- Claim C6: the structural PR score is the label score plus the three
linear-clamped volume terms, and the documented heavy PR (500 files,
100000 changed lines, 500 commits, labels bounty+feature) scores exactly
the bound 80, hence at most 80. -/
theorem C6_pr_score :
    (∀ (labels : List Label) (f l c : ℕ),
      analyze_pr_score labels f l c
        = calculate_label_score labels + min (((f : ℚ) / 50) * 20) 20
          + min (((l : ℚ) / 5000) * 20) 20 + min (((c : ℚ) / 20) * 20) 20) ∧
    analyze_pr_score [⟨"bounty"⟩, ⟨"feature"⟩] 500 100000 500 ≤ 80 := by
  constructor
  · intro labels f l c
    rfl
  · have hl : calculate_label_score [⟨"bounty"⟩, ⟨"feature"⟩] = 20 := by
      rw [label_score_eq_count]
      have hc : (PRIORITY_LABELS.countP
          (fun p => (([⟨"bounty"⟩, ⟨"feature"⟩] : List Label).map
            (fun l => strLower l.name)).any
              (fun name => pyIn (strLower p) name))) = 2 := by decide
      rw [hc]
      norm_num
    show calculate_label_score [⟨"bounty"⟩, ⟨"feature"⟩] + min (((500 : ℕ) : ℚ) / 50 * 20) 20
      + min (((100000 : ℕ) : ℚ) / 5000 * 20) 20 + min (((500 : ℕ) : ℚ) / 20 * 20) 20 ≤ 80
    rw [hl]
    norm_num [min_def]

/-- Claim C8: with any correct sampler (returning exactly the requested
number of elements), 100 ranked contributors give exactly 10 selected, as 2
samples from each of the five rank bands [30,40), [40,50), [50,60), [60,70),
[70,100); fewer than 30 contributors give the empty selection (and no band
is ever asked for more elements than it has, matching `random.sample`'s
no-raise condition). -/
theorem C8_sampler (sample : List Contributor → ℕ → List Contributor)
    (hs : ∀ l k, k ≤ l.length → (sample l k).length = k)
    (contributors : List Contributor) :
    (contributors.length = 100 →
      select_normalized_contributors sample contributors
        = sample ((contributors.drop 30).take 10) 2
          ++ sample ((contributors.drop 40).take 10) 2
          ++ sample ((contributors.drop 50).take 10) 2
          ++ sample ((contributors.drop 60).take 10) 2
          ++ sample ((contributors.drop 70).take 30) 2
      ∧ (select_normalized_contributors sample contributors).length = 10) ∧
    (contributors.length < 30 →
      select_normalized_contributors sample contributors = []) := by
  constructor
  · intro h100
    have hd1 : ((contributors.drop 30).take 10).length = 10 := by
      simp [List.length_take, List.length_drop, h100]
    have hd2 : ((contributors.drop 40).take 10).length = 10 := by
      simp [List.length_take, List.length_drop, h100]
    have hd3 : ((contributors.drop 50).take 10).length = 10 := by
      simp [List.length_take, List.length_drop, h100]
    have hd4 : ((contributors.drop 60).take 10).length = 10 := by
      simp [List.length_take, List.length_drop, h100]
    have hd5 : ((contributors.drop 70).take 30).length = 30 := by
      simp [List.length_take, List.length_drop, h100]
    have heq : select_normalized_contributors sample contributors
        = sample ((contributors.drop 30).take 10) 2
          ++ sample ((contributors.drop 40).take 10) 2
          ++ sample ((contributors.drop 50).take 10) 2
          ++ sample ((contributors.drop 60).take 10) 2
          ++ sample ((contributors.drop 70).take 30) 2 := by
      unfold select_normalized_contributors
      rw [if_pos (by omega : 40 ≤ contributors.length),
        if_pos (by omega : 50 ≤ contributors.length),
        if_pos (by omega : 60 ≤ contributors.length),
        if_pos (by omega : 70 ≤ contributors.length),
        if_pos (by omega : 100 ≤ contributors.length)]
      dsimp only
      rw [hd1, hd2, hd3, hd4, hd5]
      norm_num
    refine ⟨heq, ?_⟩
    rw [heq]
    rw [List.length_append, List.length_append, List.length_append, List.length_append]
    rw [hs _ 2 (by omega), hs _ 2 (by omega), hs _ 2 (by omega), hs _ 2 (by omega),
      hs _ 2 (by omega)]
  · intro h30
    unfold select_normalized_contributors
    repeat rw [if_neg (by omega)]
    rfl

/-- Witness for C8: 100 concrete ranked contributors and the `take`-based
sampler give exactly 10 selected. -/
theorem C8_sampler_witness :
    (select_normalized_contributors takeSample contribs100).length = 10 :=
  ((C8_sampler takeSample
    (fun l k hk => by simp only [takeSample, List.length_take]; omega)
    contribs100).1
      (by simp [contribs100])).2
